import Mathlib

/-!
Verification development for the conectajf chat subsystem.

This file shallowly embeds the chat-relevant parts of the repository:
the Supabase tables `chat_rooms`, `chat_room_members`, `chat_messages`
(ids and timestamps are modelled as `Nat`, identities as `Nat`), the
server-side SQL function `get_or_create_chat_room` (the hardened version
that raises an exception on a self-chat attempt), the `update_last_message_at`
trigger (migration 20250823100000_create_update_last_message_at_function.sql,
which sets `last_message_at := NEW.created_at`), and the client operations
from `ChatRoomScreen.tsx` (`markMessagesAsRead`, optimistic send, realtime
INSERT handler), `ChatScreen.tsx` (`fetchChatRooms`) and `utils/chat.ts`
(`getOrCreateChatRoom` RPC wrapper).
-/

namespace ConectaJF

/-- Message delivery lifecycle, the `message_status` enum of the database. -/
inductive MStatus : Type
  | sending
  | sent
  | delivered
  | read
deriving DecidableEq, Repr

/-- A row of `chat_rooms`. -/
structure Room where
  id : Nat
  is_group : Bool
  created_by : Nat
  last_message_at : Nat
  created_at : Nat
deriving DecidableEq, Repr

/-- A row of `chat_room_members`. -/
structure Member where
  room_id : Nat
  user_id : Nat
  is_typing : Bool
deriving DecidableEq, Repr

/-- A row of `chat_messages`. -/
structure Message where
  id : Nat
  room_id : Nat
  user_id : Nat
  content : String
  status : MStatus
  read_at : Option Nat
  created_at : Nat
deriving DecidableEq, Repr

/-- The chat-relevant database state: the three chat tables plus the id
sequences backing the generated primary keys. -/
structure DB where
  rooms : List Room
  members : List Member
  messages : List Message
  nextRoomId : Nat
  nextMsgId : Nat
deriving DecidableEq, Repr

/-- The empty database. -/
def emptyDB : DB :=
  { rooms := [], members := [], messages := [], nextRoomId := 0, nextMsgId := 0 }

/-- Error taxonomy of the spec (InvalidArgument, Unauthorized, StorageError, ...). -/
inductive ChatError : Type
  | invalidArgument
  | unauthorized
  | notFound
  | conflict
  | storageError
  | transportError
deriving DecidableEq, Repr

/-- Decidable equality for RPC results. -/
instance {ε α : Type} [DecidableEq ε] [DecidableEq α] :
    DecidableEq (Except ε α) := fun a b =>
  match a, b with
  | Except.ok x, Except.ok y =>
      if h : x = y then isTrue (by rw [h]) else
        isFalse (fun hc => h (Except.ok.inj hc))
  | Except.error x, Except.error y =>
      if h : x = y then isTrue (by rw [h]) else
        isFalse (fun hc => h (Except.error.inj hc))
  | Except.ok _, Except.error _ => isFalse (fun hc => Except.noConfusion hc)
  | Except.error _, Except.ok _ => isFalse (fun hc => Except.noConfusion hc)

/-- The SELECT phase of `get_or_create_chat_room`: find a non-group room
having both `u1` and `u2` as members (the `chat_room_members m1 JOIN
chat_room_members m2 JOIN chat_rooms cr ... LIMIT 1` query), returning the
first such room id if any. -/
def existing_private_room (db : DB) (u1 u2 : Nat) : Option Nat :=
  (db.rooms.find? (fun cr =>
      !cr.is_group
      && db.members.any (fun m => m.room_id == cr.id && m.user_id == u1)
      && db.members.any (fun m => m.room_id == cr.id && m.user_id == u2))).map (·.id)

/-- The INSERT phase of `get_or_create_chat_room`: insert a new non-group
room with `created_by = user1_id` and insert both users as members
(`INSERT INTO chat_rooms ... RETURNING id; INSERT INTO chat_room_members ...`). -/
def create_room_pair (db : DB) (u1 u2 : Nat) : Nat × DB :=
  let rid := db.nextRoomId
  let room : Room :=
    { id := rid, is_group := false, created_by := u1,
      last_message_at := 0, created_at := 0 }
  (rid,
    { db with
        rooms := db.rooms ++ [room],
        members := db.members
          ++ [{ room_id := rid, user_id := u1, is_typing := false },
              { room_id := rid, user_id := u2, is_typing := false }],
        nextRoomId := rid + 1 })

/-- The SQL function `public.get_or_create_chat_room(user1_id, user2_id)`
(hardened version): raise an exception if the two users are equal
(modelled as `invalidArgument` with the transaction rolled back, i.e. the
database returned unchanged); otherwise look up an existing non-group room
for the pair and return it, or create a new room with both members. -/
def get_or_create_chat_room (db : DB) (u1 u2 : Nat) :
    Except ChatError Nat × DB :=
  if u1 == u2 then
    (Except.error ChatError.invalidArgument, db)
  else
    match existing_private_room db u1 u2 with
    | some rid => (Except.ok rid, db)
    | none =>
        let p := create_room_pair db u1 u2
        (Except.ok p.1, p.2)

/-- The RPC entry point: Supabase rejects unauthenticated calls; for any
authenticated caller the `SECURITY DEFINER` function body runs unchanged —
the function never consults `auth.uid()`, so the result does not depend on
which authenticated user calls it. -/
def rpc_get_or_create (caller : Option Nat) (db : DB) (u1 u2 : Nat) :
    Except ChatError Nat × DB :=
  match caller with
  | none => (Except.error ChatError.unauthorized, db)
  | some _ => get_or_create_chat_room db u1 u2

/-- The client wrapper `getOrCreateChatRoom` in `src/utils/chat.ts`:
it calls the RPC and maps any error to `null` (the `catch` branch
returns `null`), so the caller sees only `roomId | null`. -/
def getOrCreateChatRoom (caller : Option Nat) (db : DB) (u1 u2 : Nat) :
    Option Nat × DB :=
  let r := rpc_get_or_create caller db u1 u2
  match r.1 with
  | Except.ok rid => (some rid, r.2)
  | Except.error _ => (none, r.2)

/-- Counts the non-group rooms in storage that have both `u1` and `u2`
as members: the quantity P1 says is at most one per unordered pair. -/
def countPrivateRoomsWith (db : DB) (u1 u2 : Nat) : Nat :=
  (db.rooms.filter (fun cr =>
      !cr.is_group
      && db.members.any (fun m => m.room_id == cr.id && m.user_id == u1)
      && db.members.any (fun m => m.room_id == cr.id && m.user_id == u2))).length

/-- The trigger function `public.update_last_message_at()` (AFTER INSERT ON
`chat_messages`): `UPDATE chat_rooms SET last_message_at = NEW.created_at
WHERE id = NEW.room_id`. -/
def update_last_message_at (db : DB) (msg : Message) : DB :=
  { db with
      rooms := db.rooms.map (fun r =>
        if r.id == msg.room_id then { r with last_message_at := msg.created_at }
        else r) }

/-- The message INSERT issued by `handleSendMessage` in `ChatRoomScreen.tsx`
(`insert([{ room_id, user_id, content, status: 'sent' }])`) together with the
AFTER INSERT trigger `on_new_message` that runs `update_last_message_at`. -/
def insertMessage (db : DB) (rid uid : Nat) (content : String) (t : Nat) :
    Message × DB :=
  let msg : Message :=
    { id := db.nextMsgId, room_id := rid, user_id := uid, content := content,
      status := MStatus.sent, read_at := none, created_at := t }
  (msg,
    update_last_message_at
      { db with messages := db.messages ++ [msg], nextMsgId := db.nextMsgId + 1 }
      msg)

/-- The WHERE clause of `markMessagesAsRead` in `ChatRoomScreen.tsx`:
`.eq('room_id', roomId).neq('user_id', user.id).in('status', ['sent', 'delivered'])`. -/
def eligibleForRead (rid reader : Nat) (m : Message) : Bool :=
  m.room_id == rid && m.user_id != reader
    && (m.status == MStatus.sent || m.status == MStatus.delivered)

/-- The UPDATE issued by `markMessagesAsRead` in `ChatRoomScreen.tsx`:
`update({ status: 'read', read_at: now })` on every eligible row. -/
def markMessagesAsRead (db : DB) (rid reader : Nat) (now : Nat) : DB :=
  { db with
      messages := db.messages.map (fun m =>
        if eligibleForRead rid reader m then
          { m with status := MStatus.read, read_at := some now }
        else m) }

/-- The UPDATE issued by `updateTypingStatus` in `ChatRoomScreen.tsx`:
`update({ is_typing }) .eq('room_id', roomId).eq('user_id', user.id)`. -/
def setTyping (db : DB) (rid uid : Nat) (b : Bool) : DB :=
  { db with
      members := db.members.map (fun m =>
        if m.room_id == rid && m.user_id == uid then { m with is_typing := b }
        else m) }

/-- Position of a status in the lifecycle sending, sent, delivered, read. -/
def statusRank : MStatus → Nat
  | MStatus.sending => 0
  | MStatus.sent => 1
  | MStatus.delivered => 2
  | MStatus.read => 3

/-- The operations the system performs against the chat tables: the message
insert of handleSendMessage (with its trigger), markMessagesAsRead, the
typing-flag upsert, and the room-creation RPC. -/
inductive Op : Type
  | send (rid uid : Nat) (content : String) (t : Nat)
  | markAsRead (rid reader t : Nat)
  | typing (rid uid : Nat) (b : Bool)
  | openRoom (caller : Option Nat) (u1 u2 : Nat)
deriving Repr

/-- State transition of one operation. -/
def applyOp (db : DB) : Op → DB
  | Op.send rid uid content t => (insertMessage db rid uid content t).2
  | Op.markAsRead rid reader t => markMessagesAsRead db rid reader t
  | Op.typing rid uid b => setTyping db rid uid b
  | Op.openRoom c u1 u2 => (rpc_get_or_create c db u1 u2).2

/-- State after a run of operations. -/
def applyOps (db : DB) : List Op → DB
  | [] => db
  | op :: ops => applyOps (applyOp db op) ops

/-- How a stored message row may legally evolve over time: immutable fields
stay fixed, the status never moves backward in the lifecycle, read_at is
untouched unless the status changes (which, by rank monotonicity, can only
be a move into a later status), and a message already read never changes
again. -/
def msgEvolves (m m' : Message) : Prop :=
  m'.id = m.id ∧ m'.room_id = m.room_id ∧ m'.user_id = m.user_id ∧
  m'.content = m.content ∧ m'.created_at = m.created_at ∧
  statusRank m.status ≤ statusRank m'.status ∧
  (m'.status = m.status → m'.read_at = m.read_at) ∧
  (m.status = MStatus.read → m' = m)

/-- Room ids of the membership rows of one user: the inner query of
`fetchChatRooms` in `ChatScreen.tsx`
(`chat_room_members.select(room_id).eq(user_id, user.id)`). -/
def memberRoomIds (db : DB) (uid : Nat) : List Nat :=
  (db.members.filter (fun m => m.user_id == uid)).map (·.room_id)

/-- Insert a room into a list kept in descending last_message_at order. -/
def insertByLastDesc (r : Room) : List Room → List Room
  | [] => [r]
  | x :: xs =>
      if x.last_message_at ≤ r.last_message_at then r :: x :: xs
      else x :: insertByLastDesc r xs

/-- Sorting by last_message_at descending, the
`.order('last_message_at', { ascending: false })` of the listing query. -/
def sortByLastDesc (l : List Room) : List Room :=
  l.foldr insertByLastDesc []

/-- The room-listing query of `fetchChatRooms` in `ChatScreen.tsx`: rooms
whose id occurs among the user's membership rows, ordered by
last_message_at descending. -/
def fetchChatRooms (db : DB) (uid : Nat) : List Room :=
  sortByLastDesc (db.rooms.filter (fun r => (memberRoomIds db uid).contains r.id))

/-- A concrete database used to instantiate the listing and monotonicity
theorems: user 1 is a member of rooms 5 and 6, user 2 of room 5, and room 5
holds one sent message from user 1. -/
def sampleDB : DB :=
  { rooms :=
      [{ id := 5, is_group := false, created_by := 1,
         last_message_at := 10, created_at := 0 },
       { id := 6, is_group := false, created_by := 1,
         last_message_at := 20, created_at := 0 }],
    members :=
      [{ room_id := 5, user_id := 1, is_typing := false },
       { room_id := 5, user_id := 2, is_typing := false },
       { room_id := 6, user_id := 1, is_typing := false }],
    messages :=
      [{ id := 0, room_id := 5, user_id := 1, content := "Hi",
         status := MStatus.sent, read_at := none, created_at := 10 }],
    nextRoomId := 7, nextMsgId := 1 }

/-- The Boolean eligibility test agrees with the propositional statement of
the markRead contract. -/
theorem eligibleForRead_iff (rid reader : Nat) (m : Message) :
    eligibleForRead rid reader m = true ↔
      m.room_id = rid ∧ m.user_id ≠ reader
        ∧ (m.status = MStatus.sent ∨ m.status = MStatus.delivered) := by
  simp [eligibleForRead, and_assoc]

/-- C2: for every database state and identity a, get_or_create_chat_room(a,a)
fails with InvalidArgument and returns the database unchanged — the raised
exception aborts the transaction, so no room or membership row is created
for the self-pair. -/
theorem self_chat_invalid_argument (db : DB) (a : Nat) :
    get_or_create_chat_room db a a = (Except.error ChatError.invalidArgument, db) := by
  simp [get_or_create_chat_room]

/-- C3: after every successful append of a message to a room, the new message
carries the insertion timestamp, it is appended to the log, and every room row
with the parent room id has `last_message_at` equal to the new message's
`created_at` (the AFTER INSERT trigger). Rows of other rooms are unchanged. -/
theorem insert_updates_last_message_at (db : DB) (rid uid : Nat)
    (content : String) (t : Nat) :
    (insertMessage db rid uid content t).1.created_at = t ∧
    (insertMessage db rid uid content t).2.messages
      = db.messages ++ [(insertMessage db rid uid content t).1] ∧
    (∀ r ∈ (insertMessage db rid uid content t).2.rooms,
      r.id = rid →
        r.last_message_at = (insertMessage db rid uid content t).1.created_at) ∧
    (∀ r ∈ db.rooms, r.id ≠ rid → r ∈ (insertMessage db rid uid content t).2.rooms) := by
  refine ⟨rfl, rfl, ?_, ?_⟩
  · intro r hr hid
    simp only [insertMessage, update_last_message_at, List.mem_map] at hr
    obtain ⟨r0, _, heq⟩ := hr
    by_cases h0 : r0.id = rid
    · simp [h0] at heq
      simp [← heq]
      rfl
    · simp [h0] at heq
      rw [← heq] at hid
      exact absurd hid h0
  · intro r hr hid
    simp only [insertMessage, update_last_message_at, List.mem_map]
    refine ⟨r, hr, ?_⟩
    simp [hid]

/-- Witness for insert_updates_last_message_at at a concrete database with a
room of the right id and a room of another id. -/
theorem insert_updates_last_message_at_witness :
    (∀ r ∈ (insertMessage
        { emptyDB with rooms :=
            [{ id := 5, is_group := false, created_by := 1,
               last_message_at := 0, created_at := 0 },
             { id := 6, is_group := false, created_by := 2,
               last_message_at := 3, created_at := 0 }] }
        5 1 "hi" 42).2.rooms,
      r.id = 5 →
        r.last_message_at
          = (insertMessage
              { emptyDB with rooms :=
                  [{ id := 5, is_group := false, created_by := 1,
                     last_message_at := 0, created_at := 0 },
                   { id := 6, is_group := false, created_by := 2,
                     last_message_at := 3, created_at := 0 }] }
              5 1 "hi" 42).1.created_at) := by
  have h := insert_updates_last_message_at
    { emptyDB with rooms :=
        [{ id := 5, is_group := false, created_by := 1,
           last_message_at := 0, created_at := 0 },
         { id := 6, is_group := false, created_by := 2,
           last_message_at := 3, created_at := 0 }] }
    5 1 "hi" 42
  exact h.2.2.1

/-- C4: markMessagesAsRead(roomId, readerId, now) leaves rooms and members
untouched and rewrites the message table pointwise: a message in the room
whose sender is not the reader and whose status is sent or delivered becomes
read with `read_at = now` and all other fields unchanged; every other message
row is left entirely unchanged. -/
theorem markMessagesAsRead_transitions (db : DB) (rid reader now : Nat) :
    (markMessagesAsRead db rid reader now).rooms = db.rooms ∧
    (markMessagesAsRead db rid reader now).members = db.members ∧
    (markMessagesAsRead db rid reader now).messages
      = db.messages.map (fun m =>
          if m.room_id = rid ∧ m.user_id ≠ reader
              ∧ (m.status = MStatus.sent ∨ m.status = MStatus.delivered) then
            { m with status := MStatus.read, read_at := some now }
          else m) := by
  refine ⟨rfl, rfl, ?_⟩
  simp only [markMessagesAsRead]
  apply List.map_congr_left
  intro m _
  by_cases h : m.room_id = rid ∧ m.user_id ≠ reader
      ∧ (m.status = MStatus.sent ∨ m.status = MStatus.delivered)
  · rw [if_pos ((eligibleForRead_iff rid reader m).mpr h), if_pos h]
  · rw [if_neg (fun hb => h ((eligibleForRead_iff rid reader m).mp hb)), if_neg h]

/-- Witness for markMessagesAsRead_transitions on the sample database:
user 2 marks room 5 as read at time 99. -/
theorem markMessagesAsRead_transitions_witness :
    (markMessagesAsRead sampleDB 5 2 99).messages
      = sampleDB.messages.map (fun m =>
          if m.room_id = 5 ∧ m.user_id ≠ 2
              ∧ (m.status = MStatus.sent ∨ m.status = MStatus.delivered) then
            { m with status := MStatus.read, read_at := some 99 }
          else m) :=
  (markMessagesAsRead_transitions sampleDB 5 2 99).2.2

/-- A message that came out of one markRead pass is never eligible on a
second pass over the same room and reader. -/
theorem eligible_after_markRead (rid reader now : Nat) (m : Message) :
    eligibleForRead rid reader
      (if eligibleForRead rid reader m then
        { m with status := MStatus.read, read_at := some now }
      else m) = false := by
  by_cases h : eligibleForRead rid reader m
  · rw [if_pos h]
    simp [eligibleForRead]
  · rw [if_neg h]
    exact Bool.not_eq_true _ ▸ (by simpa using h)

/-- C5: markRead is idempotent — a second call on the same room and reader,
with no intervening writes, returns the database state unchanged, whatever
timestamp the second call uses. -/
theorem markMessagesAsRead_idempotent (db : DB) (rid reader n1 n2 : Nat) :
    markMessagesAsRead (markMessagesAsRead db rid reader n1) rid reader n2
      = markMessagesAsRead db rid reader n1 := by
  simp only [markMessagesAsRead, List.map_map]
  congr 1
  apply List.map_congr_left
  intro m _
  simp only [Function.comp]
  rw [if_neg]
  simp [eligible_after_markRead rid reader n1 m]

/-- C1: a two-caller interleaving of `get_or_create_chat_room(1,2)` that
creates two rooms for the same unordered pair. The SQL function runs its
SELECT phase and its INSERT phase as separate statements inside a plain
READ COMMITTED transaction, with no pair-level unique constraint and no
lock; when both callers run the SELECT phase against the initial state
(before either transaction commits) both see no room, and then both INSERT
phases commit. The final conjunct shows the duplicate is purely an
interleaving effect: a serialized second call would have found room 0. -/
theorem get_or_create_race_creates_duplicate_rooms :
    existing_private_room emptyDB 1 2 = none ∧
    (create_room_pair emptyDB 1 2).1
      ≠ (create_room_pair (create_room_pair emptyDB 1 2).2 1 2).1 ∧
    countPrivateRoomsWith
      (create_room_pair (create_room_pair emptyDB 1 2).2 1 2).2 1 2 = 2 ∧
    existing_private_room (create_room_pair emptyDB 1 2).2 1 2 = some 0 := by
  decide

/-- C7 counterexample: two different underlying errors — an unauthenticated
call (Unauthorized) and a self-chat attempt (InvalidArgument) — are both
mapped to the same caller-visible value `none` by the client wrapper
`getOrCreateChatRoom`, so the caller cannot tell which error occurred. -/
theorem client_error_collapse_counterexample :
    (rpc_get_or_create none emptyDB 1 2).1
      = Except.error ChatError.unauthorized ∧
    (rpc_get_or_create (some 1) emptyDB 1 1).1
      = Except.error ChatError.invalidArgument ∧
    ChatError.unauthorized ≠ ChatError.invalidArgument ∧
    (getOrCreateChatRoom none emptyDB 1 2).1 = none ∧
    (getOrCreateChatRoom (some 1) emptyDB 1 1).1 = none := by
  decide

/-- C7 amended: whatever error the underlying RPC fails with, the client
wrapper `getOrCreateChatRoom` returns `none`; the error kind is swallowed
by the catch-all and is not recoverable from the returned value. -/
theorem client_maps_every_error_to_none (c : Option Nat) (db : DB)
    (u1 u2 : Nat) (e : ChatError)
    (h : (rpc_get_or_create c db u1 u2).1 = Except.error e) :
    (getOrCreateChatRoom c db u1 u2).1 = none := by
  simp [getOrCreateChatRoom, h]

/-- Witness for client_maps_every_error_to_none at an unauthenticated call. -/
theorem client_maps_every_error_to_none_witness :
    (getOrCreateChatRoom none emptyDB 1 2).1 = none :=
  client_maps_every_error_to_none none emptyDB 1 2 ChatError.unauthorized
    (by decide)

/-- C9 counterexample: caller 3 (authenticated, but neither participant)
successfully invokes the room-creation RPC for the pair (1,2); the call
returns Ok — not Unauthorized — and the created room records created_by = 1,
an identity different from the caller. -/
theorem room_creation_ignores_caller_counterexample :
    (rpc_get_or_create (some 3) emptyDB 1 2).1 = Except.ok 0 ∧
    (∃ r ∈ (rpc_get_or_create (some 3) emptyDB 1 2).2.rooms,
      r.created_by = 1) ∧
    (3 : Nat) ≠ 1 := by
  decide

/-- C9 amended: room creation requires only that the caller is authenticated.
The RPC outcome is identical for any two authenticated callers (the function
never consults the caller identity), it never fails with Unauthorized, and
when a fresh room is created its created_by is the user1_id argument —
regardless of who called. -/
theorem room_creation_requires_only_authentication (c1 c2 : Nat) (db : DB)
    (u1 u2 : Nat) :
    rpc_get_or_create (some c1) db u1 u2
      = rpc_get_or_create (some c2) db u1 u2 ∧
    (rpc_get_or_create (some c1) db u1 u2).1
      ≠ Except.error ChatError.unauthorized ∧
    (u1 ≠ u2 → existing_private_room db u1 u2 = none →
      ∃ r ∈ (rpc_get_or_create (some c1) db u1 u2).2.rooms,
        r.id = db.nextRoomId ∧ r.created_by = u1) := by
  refine ⟨rfl, ?_, ?_⟩
  · simp only [rpc_get_or_create, get_or_create_chat_room]
    by_cases h : u1 == u2
    · simp [h]
    · cases hE : existing_private_room db u1 u2 <;> simp [h, hE]
  · intro hne hnone
    have hb : (u1 == u2) = false := by simpa using hne
    simp only [rpc_get_or_create, get_or_create_chat_room, hb, Bool.false_eq_true,
      if_false, hnone, create_room_pair]
    refine ⟨{ id := db.nextRoomId, is_group := false, created_by := u1,
              last_message_at := 0, created_at := 0 }, ?_, rfl, rfl⟩
    simp

/-- Witness for room_creation_requires_only_authentication: caller 3 creates
a room for the distinct pair (1,2) on the empty database. -/
theorem room_creation_requires_only_authentication_witness :
    ∃ r ∈ (rpc_get_or_create (some 3) emptyDB 1 2).2.rooms,
      r.id = emptyDB.nextRoomId ∧ r.created_by = 1 :=
  (room_creation_requires_only_authentication 3 4 emptyDB 1 2).2.2
    (by decide) (by decide)

/-! Client-side message list of `ChatRoomScreen.tsx`: the optimistic send
and the realtime INSERT handler. -/

/-- A message as held in the client's `messages` state: its id is a string,
either a server row id or the temporary id fabricated by the optimistic
send. -/
structure ClientMsg where
  id : String
  room_id : Nat
  user_id : Nat
  content : String
  status : MStatus
  read_at : Option Nat
  created_at : Nat
deriving DecidableEq, Repr

/-- The temporary id used by handleSendMessage: a template over the current
epoch milliseconds. -/
def tempId (nowMs : Nat) : String :=
  "temp-" ++ toString nowMs

/-- The optimistic message appended by handleSendMessage before the insert
round-trip: temporary id from the clock, status sending. -/
def tempMessage (uid rid : Nat) (content : String) (nowMs : Nat) : ClientMsg :=
  { id := tempId nowMs, room_id := rid, user_id := uid, content := content,
    status := MStatus.sending, read_at := none, created_at := nowMs }

/-- The optimistic part of handleSendMessage: append the temporary message
to the local list. -/
def handleSendMessageLocal (msgs : List ClientMsg) (uid rid : Nat)
    (content : String) (nowMs : Nat) : List ClientMsg :=
  msgs ++ [tempMessage uid rid content nowMs]

/-- The realtime INSERT handler of `ChatRoomScreen.tsx`: on a
MessageInserted payload it maps over the list and replaces the entry whose
id equals the string "temp-" followed by the inserted message's content. -/
def onMessageInserted (msgs : List ClientMsg) (inserted : ClientMsg) :
    List ClientMsg :=
  msgs.map (fun m => if m.id == "temp-" ++ inserted.content then inserted else m)

/-- C8: evaluating the reconciliation path at a concrete send. The user
sends "Hi" at epoch-millisecond 1000, so the optimistic entry gets id
"temp-1000"; the authoritative inserted row arrives with content "Hi", and
the handler looks for an entry with id "temp-Hi". No entry matches: the
list is returned unchanged, the authoritative row is never added, and the
optimistic entry stays in status sending. -/
theorem optimistic_message_never_replaced :
    (onMessageInserted (handleSendMessageLocal [] 1 7 "Hi" 1000)
        { id := "srv-1", room_id := 7, user_id := 1, content := "Hi",
          status := MStatus.sent, read_at := none, created_at := 1001 }
      = handleSendMessageLocal [] 1 7 "Hi" 1000) ∧
    ({ id := "srv-1", room_id := 7, user_id := 1, content := "Hi",
       status := MStatus.sent, read_at := none, created_at := 1001 : ClientMsg }
      ∉ onMessageInserted (handleSendMessageLocal [] 1 7 "Hi" 1000)
          { id := "srv-1", room_id := 7, user_id := 1, content := "Hi",
            status := MStatus.sent, read_at := none, created_at := 1001 }) ∧
    (∃ m ∈ onMessageInserted (handleSendMessageLocal [] 1 7 "Hi" 1000)
        { id := "srv-1", room_id := 7, user_id := 1, content := "Hi",
          status := MStatus.sent, read_at := none, created_at := 1001 },
      m.status = MStatus.sending) := by
  decide

/-- The statusRank encoding is injective. -/
theorem statusRank_inj (a b : MStatus) (h : statusRank a = statusRank b) :
    a = b := by
  cases a <;> cases b <;> first | rfl | exact absurd h (by decide)

/-- msgEvolves is reflexive. -/
theorem msgEvolves_refl (m : Message) : msgEvolves m m :=
  ⟨rfl, rfl, rfl, rfl, rfl, le_refl _, fun _ => rfl, fun _ => rfl⟩

/-- msgEvolves composes across successive operations. -/
theorem msgEvolves_trans (m m' m'' : Message)
    (h1 : msgEvolves m m') (h2 : msgEvolves m' m'') : msgEvolves m m'' := by
  obtain ⟨i1, r1, u1, c1, t1, s1, e1, d1⟩ := h1
  obtain ⟨i2, r2, u2, c2, t2, s2, e2, d2⟩ := h2
  refine ⟨i2.trans i1, r2.trans r1, u2.trans u1, c2.trans c1, t2.trans t1,
    s1.trans s2, ?_, ?_⟩
  · intro hs
    have hmid : statusRank m'.status = statusRank m.status :=
      le_antisymm (hs ▸ s2) s1
    have hmid' : m'.status = m.status := statusRank_inj _ _ hmid
    exact (e2 (hs.trans hmid'.symm)).trans (e1 hmid')
  · intro hr
    have hm' : m' = m := d1 hr
    exact (d2 (hm' ▸ hr)).trans hm'

/-- The room-creation RPC never touches the message table. -/
theorem rpc_messages_unchanged (c : Option Nat) (db : DB) (u1 u2 : Nat) :
    (rpc_get_or_create c db u1 u2).2.messages = db.messages := by
  cases c with
  | none => rfl
  | some x =>
      simp only [rpc_get_or_create, get_or_create_chat_room]
      by_cases h : u1 == u2
      · simp [h]
      · cases hE : existing_private_room db u1 u2 <;>
          simp [h, hE, create_room_pair]

/-- One operation preserves every existing message position and lets each
stored row evolve only as msgEvolves allows. -/
theorem applyOp_message_pointwise (db : DB) (op : Op) (i : Nat) (m : Message)
    (h : db.messages[i]? = some m) :
    ∃ m', (applyOp db op).messages[i]? = some m' ∧ msgEvolves m m' := by
  have hlt : i < db.messages.length := by
    by_contra hge
    rw [List.getElem?_eq_none (by omega)] at h
    cases h
  cases op with
  | send rid uid content t =>
      refine ⟨m, ?_, msgEvolves_refl m⟩
      show (db.messages ++ [(insertMessage db rid uid content t).1])[i]? = some m
      rw [List.getElem?_append, if_pos hlt]
      exact h
  | markAsRead rid reader t =>
      have hmap : (applyOp db (Op.markAsRead rid reader t)).messages[i]?
          = (db.messages[i]?).map (fun m =>
              if eligibleForRead rid reader m then
                { m with status := MStatus.read, read_at := some t }
              else m) := by
        show (db.messages.map _)[i]? = _
        rw [List.getElem?_map]
      by_cases he : eligibleForRead rid reader m
      · refine ⟨{ m with status := MStatus.read, read_at := some t }, ?_, ?_⟩
        · rw [hmap, h]
          simp [he]
        · have hst : m.status = MStatus.sent ∨ m.status = MStatus.delivered :=
            ((eligibleForRead_iff rid reader m).mp he).2.2
          refine ⟨rfl, rfl, rfl, rfl, rfl, ?_, ?_, ?_⟩
          · rcases hst with hst | hst <;> simp [hst, statusRank]
          · intro hs
            rcases hst with hst | hst <;> rw [hst] at hs <;> simp at hs
          · intro hr
            rcases hst with hst | hst <;> rw [hst] at hr <;>
              exact absurd hr (by decide)
      · refine ⟨m, ?_, msgEvolves_refl m⟩
        rw [hmap, h]
        simp [he]
  | typing rid uid b =>
      exact ⟨m, h, msgEvolves_refl m⟩
  | openRoom c u1 u2 =>
      refine ⟨m, ?_, msgEvolves_refl m⟩
      show (rpc_get_or_create c db u1 u2).2.messages[i]? = some m
      rw [rpc_messages_unchanged]
      exact h

/-- C6: over any run of system operations, every stored message keeps its
identity fields, its status only moves forward along sending, sent,
delivered, read (so the observed statuses form a subsequence of that
lifecycle), read_at changes only together with a status change (the move
into read), and a message already read never changes again. -/
theorem message_status_monotonic (db : DB) (ops : List Op) (i : Nat)
    (m : Message) (h : db.messages[i]? = some m) :
    ∃ m', (applyOps db ops).messages[i]? = some m' ∧ msgEvolves m m' := by
  induction ops generalizing db m with
  | nil => exact ⟨m, h, msgEvolves_refl m⟩
  | cons op ops ih =>
      obtain ⟨m1, h1, hstep⟩ := applyOp_message_pointwise db op i m h
      obtain ⟨m2, h2, hrest⟩ := ih (applyOp db op) m1 h1
      exact ⟨m2, h2, msgEvolves_trans m m1 m2 hstep hrest⟩

/-- Witness for message_status_monotonic: the sample database run through a
markRead by user 2 followed by a typing update and a room-open call. -/
theorem message_status_monotonic_witness :
    ∃ m', (applyOps sampleDB
        [Op.markAsRead 5 2 99, Op.typing 5 1 true,
         Op.openRoom (some 1) 1 2]).messages[0]? = some m' ∧
      msgEvolves
        { id := 0, room_id := 5, user_id := 1, content := "Hi",
          status := MStatus.sent, read_at := none, created_at := 10 } m' :=
  message_status_monotonic sampleDB
    [Op.markAsRead 5 2 99, Op.typing 5 1 true, Op.openRoom (some 1) 1 2]
    0
    { id := 0, room_id := 5, user_id := 1, content := "Hi",
      status := MStatus.sent, read_at := none, created_at := 10 }
    (by decide)

/-- Membership in an ordered insert. -/
theorem mem_insertByLastDesc (r a : Room) (l : List Room) :
    a ∈ insertByLastDesc r l ↔ a = r ∨ a ∈ l := by
  induction l with
  | nil => simp [insertByLastDesc]
  | cons x xs ih =>
      simp only [insertByLastDesc]
      by_cases h : x.last_message_at ≤ r.last_message_at
      · rw [if_pos h]
        exact List.mem_cons
      · rw [if_neg h]
        simp only [List.mem_cons, ih]
        tauto

/-- Ordered insert preserves descending order. -/
theorem pairwise_insertByLastDesc (r : Room) (l : List Room)
    (h : List.Pairwise (fun a b => b.last_message_at ≤ a.last_message_at) l) :
    List.Pairwise (fun a b => b.last_message_at ≤ a.last_message_at)
      (insertByLastDesc r l) := by
  induction l with
  | nil => simp [insertByLastDesc]
  | cons x xs ih =>
      rcases List.pairwise_cons.mp h with ⟨hx, hxs⟩
      simp only [insertByLastDesc]
      by_cases hc : x.last_message_at ≤ r.last_message_at
      · rw [if_pos hc]
        refine List.pairwise_cons.mpr ⟨?_, h⟩
        intro b hb
        rcases List.mem_cons.mp hb with hb | hb
        · rw [hb]; exact hc
        · exact le_trans (hx b hb) hc
      · rw [if_neg hc]
        refine List.pairwise_cons.mpr ⟨?_, ih hxs⟩
        intro b hb
        rcases (mem_insertByLastDesc r b xs).mp hb with hb | hb
        · rw [hb]; exact le_of_not_le hc
        · exact hx b hb

/-- The listing sort returns a descending sequence. -/
theorem pairwise_sortByLastDesc (l : List Room) :
    List.Pairwise (fun a b => b.last_message_at ≤ a.last_message_at)
      (sortByLastDesc l) := by
  induction l with
  | nil => simp [sortByLastDesc]
  | cons x xs ih => exact pairwise_insertByLastDesc x _ ih

/-- The listing sort neither adds nor removes rooms. -/
theorem mem_sortByLastDesc (a : Room) (l : List Room) :
    a ∈ sortByLastDesc l ↔ a ∈ l := by
  induction l with
  | nil => simp [sortByLastDesc]
  | cons x xs ih =>
      show a ∈ insertByLastDesc x (sortByLastDesc xs) ↔ _
      rw [mem_insertByLastDesc, ih]
      simp [eq_comm]

/-- C10: the room listing returned to a user is in descending
last_message_at order, and every room in it is one the user holds a
membership row for. -/
theorem fetchChatRooms_sorted_and_member_only (db : DB) (uid : Nat) :
    List.Pairwise (fun a b => b.last_message_at ≤ a.last_message_at)
      (fetchChatRooms db uid) ∧
    ∀ r ∈ fetchChatRooms db uid,
      ∃ m ∈ db.members, m.room_id = r.id ∧ m.user_id = uid := by
  refine ⟨pairwise_sortByLastDesc _, ?_⟩
  intro r hr
  rw [fetchChatRooms, mem_sortByLastDesc, List.mem_filter] at hr
  obtain ⟨_, hc⟩ := hr
  have hmem : r.id ∈ memberRoomIds db uid := by
    simpa using hc
  simp only [memberRoomIds, List.mem_map, List.mem_filter] at hmem
  obtain ⟨m, ⟨hm, hmu⟩, hmr⟩ := hmem
  exact ⟨m, hm, hmr, by simpa using hmu⟩

/-- Witness for fetchChatRooms_sorted_and_member_only on the sample
database: room 5 appears in user 1's listing and a membership row backs it. -/
theorem fetchChatRooms_sorted_and_member_only_witness :
    ∃ m ∈ sampleDB.members,
      m.room_id = ({ id := 5, is_group := false, created_by := 1,
                     last_message_at := 10, created_at := 0 } : Room).id ∧
      m.user_id = 1 :=
  (fetchChatRooms_sorted_and_member_only sampleDB 1).2
    { id := 5, is_group := false, created_by := 1,
      last_message_at := 10, created_at := 0 }
    (by decide)

end ConectaJF
